import Mathlib

/-
Verification development for the invoice engine in `make_invoice.py`.

The pure core of the program (time arithmetic, calendar rollover, payment
reference incrementing, invoice expansion, period advancing) is shallowly
embedded below.  Python machine-level details that the core relies on are
modelled as follows:

* Python `int` is unbounded, so integers are `Nat`/`Int` with exact arithmetic.
* Python floats appear only as fractional hours and prices; the arithmetic
  performed on them (`+`, `-`, `*`, `max`, comparisons on small clock values)
  is embedded over `ℚ`.
* exceptions (`assert`, `ValueError`, missing files, `sys.exit`) are modelled
  with `Option`/`Except`.
* `datetime.date` is modelled by a `year/month/day` record together with the
  Gregorian calendar rules that the `datetime` library implements.
-/

namespace MakeInvoice

/- The Batteries rational-number operations are `@[irreducible]`, which
blocks `decide` on concrete rational arithmetic; evaluation on concrete
invoice records needs them unfolded. -/
attribute [local semireducible] Rat.mul Rat.add Rat.inv Rat.sub

/-! ## Generic small helpers (Python string/int primitives) -/

/-- Python `str.split(sep)` on a single-character separator, over char lists.
Empty pieces are kept, and `"".split(sep) == [""]`. -/
def splitOnChar (sep : Char) : List Char → List (List Char)
  | [] => [[]]
  | c :: rest =>
    if c = sep then [] :: splitOnChar sep rest
    else
      match splitOnChar sep rest with
      | piece :: pieces => (c :: piece) :: pieces
      | [] => [[c]]

/-- Numeric value of a decimal digit character. -/
def digitVal (c : Char) : Nat := c.toNat - 48

/-- Value of a string of decimal digits read left to right (the value
`int(s)` computes on a sign-free digit string). -/
def digitsVal (cs : List Char) : Nat :=
  cs.foldl (fun a c => a * 10 + digitVal c) 0

/-- Python `int(s)` on a sign-free string: succeeds exactly on nonempty
all-digit strings.  (The call sites below only ever pass regex groups drawn
from `[0-9]*` or `[0-9*]`, which are sign- and whitespace-free, so this model
is faithful there.) -/
def digitsToNat (cs : List Char) : Option Nat :=
  if cs ≠ [] ∧ cs.all Char.isDigit then some (digitsVal cs) else none

/-- Python `int(s)` including an optional leading sign. -/
def pyInt (cs : List Char) : Option Int :=
  match cs with
  | '-' :: rest => (digitsToNat rest).map (fun n => -(n : Int))
  | '+' :: rest => (digitsToNat rest).map (fun n => (n : Int))
  | _ => (digitsToNat cs).map (fun n => (n : Int))

/-- The decimal digit character for `n < 10` (defaults to `'0'` above 9,
which no call site reaches). -/
def digitChar (n : Nat) : Char :=
  match n with
  | 0 => '0' | 1 => '1' | 2 => '2' | 3 => '3' | 4 => '4'
  | 5 => '5' | 6 => '6' | 7 => '7' | 8 => '8' | 9 => '9'
  | _ => '0'

/-- Fuelled digit printer: with `n < 10 ^ fuel` it prints the decimal digits
of `n` most-significant first. -/
def natToDecimalAux : Nat → Nat → List Char
  | 0, n => [digitChar (n % 10)]
  | fuel + 1, n =>
    if n < 10 then [digitChar n]
    else natToDecimalAux fuel (n / 10) ++ [digitChar (n % 10)]

/-- Python `str(n)` for a nonnegative integer: decimal digits, no leading
zeros (except `"0"` itself). -/
def natToDec (n : Nat) : String :=
  String.mk (natToDecimalAux n n)

/-! ## CalendarRollover: the `datetime.date` model -/

/-- A calendar date as `datetime.date` stores it. -/
structure Date where
  year : Nat
  month : Nat
  day : Nat
deriving DecidableEq

/-- Gregorian leap-year rule (what `datetime` implements). -/
def isLeapYear (y : Nat) : Bool :=
  y % 4 = 0 ∧ (y % 100 ≠ 0 ∨ y % 400 = 0)

/-- Number of days in a month of the Gregorian calendar. -/
def daysInMonth (y m : Nat) : Nat :=
  if m = 2 then (if isLeapYear y then 29 else 28)
  else if m = 4 ∨ m = 6 ∨ m = 9 ∨ m = 11 then 30 else 31

/-- The invariant every constructed `datetime.date` satisfies. -/
def ValidDate (d : Date) : Prop :=
  1 ≤ d.year ∧ 1 ≤ d.month ∧ d.month ≤ 12 ∧ 1 ≤ d.day ∧
    d.day ≤ daysInMonth d.year d.month

instance (d : Date) : Decidable (ValidDate d) := by
  unfold ValidDate; infer_instance

/-- `date + timedelta(days=1)` on valid dates. -/
def addDay (d : Date) : Date :=
  if d.day < daysInMonth d.year d.month then ⟨d.year, d.month, d.day + 1⟩
  else if d.month < 12 then ⟨d.year, d.month + 1, 1⟩
  else ⟨d.year + 1, 1, 1⟩

/-- `date + timedelta(days=n)`. -/
def addDays : Nat → Date → Date
  | 0, d => d
  | n + 1, d => addDays n (addDay d)

/-- The loop of `end_of_month`: `while (date + day).month == cur_month:
date = date + day`.  The loop advances at most to day 31, so fuel 40 is
never exhausted on a valid date. -/
def eomLoop (curMonth : Nat) : Nat → Date → Date
  | 0, d => d
  | fuel + 1, d =>
    if (addDay d).month = curMonth then eomLoop curMonth fuel (addDay d) else d

/-- `end_of_month` from the source.  Note the source line
`date.replace(day=28)` discards its result (`date.replace` returns a new
object), so the walk starts from `date` itself; the loop then walks forward
while the month is unchanged. -/
def end_of_month (d : Date) : Date :=
  eomLoop d.month 40 d

/-- Days-since-epoch rank of a date (the value underlying Python's
`date.__sub__`; Howard Hinnant's civil-days formula). -/
def toRataDie (d : Date) : Int :=
  let y : Nat := if d.month ≤ 2 then d.year - 1 else d.year
  let era : Nat := y / 400
  let yoe : Nat := y - era * 400
  let mp : Nat := (d.month + 9) % 12
  let doy : Nat := (153 * mp + 2) / 5 + d.day - 1
  let doe : Nat := yoe * 365 + yoe / 4 - yoe / 100 + doy
  (era * 146097 + doe : Int) - 719468

/-- Left-pad a string with `'0'` to the given width, as
`"0" * (w - len(s)) + s` does (no padding when already long enough). -/
def zeroPad (width : Nat) (s : String) : String :=
  String.mk (List.replicate (width - s.length) '0') ++ s

/-- `pretty_date` from the source: `date.strftime("%d.%m.%Y")`. -/
def pretty_date (d : Date) : String :=
  zeroPad 2 (natToDec d.day) ++ "." ++ zeroPad 2 (natToDec d.month) ++ "." ++
    zeroPad 4 (natToDec d.year)

/-- `parse_pretty_date` from the source, i.e. `dateutil.parser.parse(s,
dayfirst=True)`, modelled on the day-first dotted `DD.MM.YYYY` layout that
this program reads and writes; an out-of-range field raises, modelled by
`none`. -/
def parse_pretty_date (s : String) : Option Date :=
  match splitOnChar '.' s.data with
  | [ds, ms, ys] =>
    match digitsToNat ds, digitsToNat ms, digitsToNat ys with
    | some d, some m, some y =>
      if ValidDate ⟨y, m, d⟩ then some ⟨y, m, d⟩ else none
    | _, _, _ => none
  | _ => none

/-! ## Calendar lemmas -/

lemma daysInMonth_le_31 (y m : Nat) : daysInMonth y m ≤ 31 := by
  unfold daysInMonth; split_ifs <;> omega

lemma one_le_daysInMonth (y m : Nat) : 1 ≤ daysInMonth y m := by
  unfold daysInMonth; split_ifs <;> omega

lemma addDay_valid {d : Date} (hv : ValidDate d) : ValidDate (addDay d) := by
  obtain ⟨y, m, day⟩ := d
  obtain ⟨hy, hm1, hm2, hd1, hd2⟩ := hv
  dsimp only [ValidDate, addDay] at *
  split_ifs with h1 h2 <;>
    refine ⟨?_, ?_, ?_, ?_, ?_⟩ <;> dsimp only <;>
      first
        | omega
        | exact one_le_daysInMonth _ _

lemma eomLoop_eq (fuel : Nat) :
    ∀ d : Date, ValidDate d →
      daysInMonth d.year d.month ≤ d.day + fuel →
      eomLoop d.month fuel d = ⟨d.year, d.month, daysInMonth d.year d.month⟩ := by
  induction fuel with
  | zero =>
    intro d hv hle
    have hday : d.day = daysInMonth d.year d.month := by
      have := hv.2.2.2.2; omega
    have h0 : eomLoop d.month 0 d = d := rfl
    rw [h0, ← hday]
  | succ n ih =>
    intro d hv hle
    have hstep : eomLoop d.month (n + 1) d =
        if (addDay d).month = d.month then eomLoop d.month n (addDay d) else d := rfl
    by_cases h : d.day < daysInMonth d.year d.month
    · have hadd : addDay d = ⟨d.year, d.month, d.day + 1⟩ := by
        unfold addDay; simp [h]
      have hmonth : (addDay d).month = d.month := by rw [hadd]
      have hval : ValidDate (⟨d.year, d.month, d.day + 1⟩ : Date) := by
        rw [← hadd]; exact addDay_valid hv
      have hrec := ih ⟨d.year, d.month, d.day + 1⟩ hval (by dsimp only; omega)
      rw [hstep, if_pos hmonth, hadd]
      exact hrec
    · have hday : d.day = daysInMonth d.year d.month := by
        have := hv.2.2.2.2; omega
      have hmonth : (addDay d).month ≠ d.month := by
        unfold addDay
        rw [if_neg h]
        split_ifs with h12
        · dsimp only; omega
        · have hm12 : d.month = 12 := by have := hv.2.2.1; omega
          dsimp only; omega
      rw [hstep, if_neg hmonth, ← hday]

/-- Helper: on any valid date, `end_of_month` produces the last day of the
same month. -/
lemma end_of_month_spec {d : Date} (hv : ValidDate d) :
    end_of_month d = ⟨d.year, d.month, daysInMonth d.year d.month⟩ := by
  have h31 := daysInMonth_le_31 d.year d.month
  have hd1 := hv.2.2.2.1
  exact eomLoop_eq 40 d hv (by omega)

lemma parse_pretty_date_valid {s : String} {d : Date}
    (h : parse_pretty_date s = some d) : ValidDate d := by
  unfold parse_pretty_date at h
  split at h
  · split at h
    · split at h
      · simp only [Option.some.injEq] at h
        subst h; assumption
      · exact absurd h (by simp)
    · exact absurd h (by simp)
  · exact absurd h (by simp)

/-! ## TimeArithmetic -/

/-- `time_to_hours` from the source: split on `':'`, require exactly two
integer parts `h` and `minutes`, return `h + minutes / 60`.  A wrong number
of parts or a non-integer part raises (`none`). -/
def time_to_hours (s : String) : Option ℚ :=
  match (splitOnChar ':' s.data).map pyInt with
  | [some h, some m] => some ((h : ℚ) + (m : ℚ) / 60)
  | _ => none

/-- `hours_outside_business` from the source.  The two `assert` statements
are modelled by `none`. -/
def hours_outside_business (business_start business_end time_start time_end : ℚ) :
    Option ℚ :=
  if ¬ time_start < time_end then none
  else if ¬ business_start < business_end then none
  else if time_end ≤ business_start ∨ time_start ≥ business_end then
    some (time_end - time_start)
  else
    some (max 0 (business_start - time_start) + max 0 (time_end - business_end))

/-- C3: for rational inputs with `business_start < business_end` and
`time_start < time_end`, `hours_outside_business` returns the full duration
`time_end - time_start` when the interval does not overlap the business
window, and otherwise `max 0 (business_start - time_start) + max 0
(time_end - business_end)`; in particular the four anchor evaluations
`(9,17,7,10) = 2`, `(9,17,16,19) = 2`, `(9,17,10,12) = 0`, `(9,17,20,22) = 2`
hold. -/
theorem c3_hours_outside_business (bs be ts te : ℚ)
    (hb : bs < be) (ht : ts < te) :
    (Disjoint (Set.Ioo ts te) (Set.Ioo bs be) →
      hours_outside_business bs be ts te = some (te - ts)) ∧
    (¬ Disjoint (Set.Ioo ts te) (Set.Ioo bs be) →
      hours_outside_business bs be ts te =
        some (max 0 (bs - ts) + max 0 (te - be))) ∧
    hours_outside_business 9 17 7 10 = some 2 ∧
    hours_outside_business 9 17 16 19 = some 2 ∧
    hours_outside_business 9 17 10 12 = some 0 ∧
    hours_outside_business 9 17 20 22 = some 2 := by
  have hiff : Disjoint (Set.Ioo ts te) (Set.Ioo bs be) ↔ (te ≤ bs ∨ be ≤ ts) := by
    rw [Set.Ioo_disjoint_Ioo]
    constructor
    · intro hmin
      rcases min_le_iff.mp hmin with h | h
      · rcases le_max_iff.mp h with h' | h'
        · exact absurd h' (not_le.mpr ht)
        · exact Or.inl h'
      · rcases le_max_iff.mp h with h' | h'
        · exact Or.inr h'
        · exact absurd h' (not_le.mpr hb)
    · intro h
      rcases h with h | h
      · exact le_trans (min_le_left _ _) (le_trans h (le_max_right _ _))
      · exact le_trans (min_le_right _ _) (le_trans h (le_max_left _ _))
  refine ⟨?_, ?_, by norm_num [hours_outside_business], by norm_num [hours_outside_business],
    by norm_num [hours_outside_business], by norm_num [hours_outside_business]⟩
  · intro hdisj
    have hcond : te ≤ bs ∨ ts ≥ be := by
      rcases hiff.mp hdisj with h | h
      · exact Or.inl h
      · exact Or.inr h
    simp only [hours_outside_business, not_lt.mpr (le_of_lt ht)]
    rw [if_neg (by simpa using ht), if_neg (by simpa using hb), if_pos hcond]
  · intro hdisj
    have hcond : ¬ (te ≤ bs ∨ ts ≥ be) := by
      intro hc
      apply hdisj
      exact hiff.mpr (by rcases hc with h | h; exact Or.inl h; exact Or.inr h)
    simp only [hours_outside_business]
    rw [if_neg (by simpa using ht), if_neg (by simpa using hb), if_neg hcond]

/-- Witness for C3, at the pre-business anchor input. -/
theorem c3_hours_outside_business_witness :
    ((9 : ℚ) < 17 ∧ (7 : ℚ) < 10) ∧
    ((Disjoint (Set.Ioo (7 : ℚ) 10) (Set.Ioo (9 : ℚ) 17) →
      hours_outside_business 9 17 7 10 = some (10 - 7)) ∧
    (¬ Disjoint (Set.Ioo (7 : ℚ) 10) (Set.Ioo (9 : ℚ) 17) →
      hours_outside_business 9 17 7 10 =
        some (max 0 (9 - 7) + max 0 (10 - 17))) ∧
    hours_outside_business 9 17 7 10 = some 2 ∧
    hours_outside_business 9 17 16 19 = some 2 ∧
    hours_outside_business 9 17 10 12 = some 0 ∧
    hours_outside_business 9 17 20 22 = some 2) :=
  ⟨⟨by norm_num, by norm_num⟩,
    c3_hours_outside_business 9 17 7 10 (by norm_num) (by norm_num)⟩

/-- C6: on every valid date, `end_of_month` returns the last calendar day
of the month containing the date: year and month are preserved, the day is
the month's length, in particular 29 in a leap-year February, 28 in a
non-leap February and 31 in every 31-day month. -/
theorem c6_end_of_month (d : Date) (hv : ValidDate d) :
    (end_of_month d).year = d.year ∧
    (end_of_month d).month = d.month ∧
    (end_of_month d).day = daysInMonth d.year d.month ∧
    (d.month = 2 → isLeapYear d.year = true → (end_of_month d).day = 29) ∧
    (d.month = 2 → isLeapYear d.year = false → (end_of_month d).day = 28) ∧
    ((d.month = 1 ∨ d.month = 3 ∨ d.month = 5 ∨ d.month = 7 ∨ d.month = 8 ∨
        d.month = 10 ∨ d.month = 12) → (end_of_month d).day = 31) := by
  have hspec := end_of_month_spec hv
  rw [hspec]
  refine ⟨rfl, rfl, rfl, ?_, ?_, ?_⟩
  · intro hm hleap; simp [daysInMonth, hm, hleap]
  · intro hm hleap; simp [daysInMonth, hm, hleap]
  · intro hm
    rcases hm with h | h | h | h | h | h | h <;> simp [daysInMonth, h]

/-- Witness for C6, at 10 February 2024 (a leap year). -/
theorem c6_end_of_month_witness :
    ValidDate ⟨2024, 2, 10⟩ ∧
    ((end_of_month ⟨2024, 2, 10⟩).year = 2024 ∧
    (end_of_month ⟨2024, 2, 10⟩).month = 2 ∧
    (end_of_month ⟨2024, 2, 10⟩).day = daysInMonth 2024 2 ∧
    ((2 : Nat) = 2 → isLeapYear 2024 = true → (end_of_month ⟨2024, 2, 10⟩).day = 29) ∧
    ((2 : Nat) = 2 → isLeapYear 2024 = false → (end_of_month ⟨2024, 2, 10⟩).day = 28) ∧
    (((2 : Nat) = 1 ∨ (2 : Nat) = 3 ∨ (2 : Nat) = 5 ∨ (2 : Nat) = 7 ∨ (2 : Nat) = 8 ∨
        (2 : Nat) = 10 ∨ (2 : Nat) = 12) → (end_of_month ⟨2024, 2, 10⟩).day = 31)) :=
  ⟨by decide, c6_end_of_month ⟨2024, 2, 10⟩ (by decide)⟩

/-! ## ReferenceIncrementer

`PR_FORMATS` in the source is a list of four regex strings containing the
text `{year}`.  The list is used as-is (`re.match(f, pr)`, no `.format`
call), so `{year}` is not a placeholder at match time: Python's `re` treats
the brace group as the literal six characters `{year}` (an invalid
quantifier falls back to a literal).  The matchers below embed the four
patterns with Python's default-flag semantics: `.` matches any character
except `'\n'`, a negated class `[^0-9]` also matches `'\n'`, and the final
`$` matches at the end of the string or just before a trailing `'\n'`.
-/

instance {ε α : Type} [DecidableEq ε] [DecidableEq α] : DecidableEq (Except ε α) :=
  fun a b =>
    match a, b with
    | Except.ok x, Except.ok y =>
      if h : x = y then isTrue (by rw [h])
      else isFalse (by intro hc; injection hc; contradiction)
    | Except.error x, Except.error y =>
      if h : x = y then isTrue (by rw [h])
      else isFalse (by intro hc; injection hc; contradiction)
    | Except.ok _, Except.error _ => isFalse (by intro hc; exact Except.noConfusion hc)
    | Except.error _, Except.ok _ => isFalse (by intro hc; exact Except.noConfusion hc)

/-- The literal characters the unformatted `{year}` group matches. -/
def yearLit : List Char := ['\x7b', 'y', 'e', 'a', 'r', '\x7d']

/-- The three named groups every pattern in `PR_FORMATS` extracts.  The
group named `prefix` in the source is called `pfx` here. -/
structure RefGroups where
  pfx : String
  year : String
  number : String
deriving DecidableEq

/-- Pattern 1, `^(?P<prefix>..)(?P<year>{year})(?P<number>[0-9]*)$`, matched
against the whole input: two non-newline characters, the literal `{year}`,
then trailing digits. -/
def strictP1 (cs : List Char) : Option RefGroups :=
  match cs with
  | c1 :: c2 :: rest =>
    if c1 ≠ '\n' ∧ c2 ≠ '\n' ∧ rest.take 6 = yearLit ∧ (rest.drop 6).all Char.isDigit
    then some ⟨String.mk [c1, c2], String.mk yearLit, String.mk (rest.drop 6)⟩
    else none
  | _ => none

/-- Pattern 2, `^(?P<prefix>)(?P<year>{year})(?P<number>[0-9*])$`: the
literal `{year}` followed by exactly one character from the class `[0-9*]`
(a digit or an asterisk — the source writes `[0-9*]`, not `[0-9]*`). -/
def strictP2 (cs : List Char) : Option RefGroups :=
  match cs.drop 6 with
  | [c] =>
    if cs.take 6 = yearLit ∧ (c.isDigit ∨ c = '*')
    then some ⟨"", String.mk yearLit, String.mk [c]⟩
    else none
  | _ => none

/-- Pattern 3, `^(?P<year>)(?P<prefix>.*[^0-9])(?P<number>[0-9]*)$`: the
number group is the maximal run of trailing digits, the prefix is
everything before it (greedy `.*` makes the prefix as long as possible and
`[0-9]*$` then forces it to end at the last non-digit).  The prefix must be
nonempty, its last character is matched by `[^0-9]` (which admits `'\n'`),
and the characters before it are matched by `.` (which excludes `'\n'`). -/
def strictP3 (cs : List Char) : Option RefGroups :=
  let num := (cs.reverse.takeWhile Char.isDigit).reverse
  let pre := (cs.reverse.dropWhile Char.isDigit).reverse
  if pre ≠ [] ∧ pre.dropLast.all (fun c => c ≠ '\n')
  then some ⟨String.mk pre, "", String.mk num⟩
  else none

/-- Pattern 4, `^(?P<year>)(?P<prefix>)(?P<number>[0-9]*)$`: digits only,
including the empty string. -/
def strictP4 (cs : List Char) : Option RefGroups :=
  if cs.all Char.isDigit then some ⟨"", "", String.mk cs⟩ else none

/-- Python's `$` with default flags: a fully anchored pattern matches the
whole string, or everything before a single trailing `'\n'`. -/
def withDollarNewline (strict : List Char → Option RefGroups) (s : String) :
    Option RefGroups :=
  match strict s.data with
  | some g => some g
  | none =>
    if s.data.getLast? = some '\n' then strict s.data.dropLast else none

def matchP1 (s : String) : Option RefGroups := withDollarNewline strictP1 s
def matchP2 (s : String) : Option RefGroups := withDollarNewline strictP2 s
def matchP3 (s : String) : Option RefGroups := withDollarNewline strictP3 s
def matchP4 (s : String) : Option RefGroups := withDollarNewline strictP4 s

/-- The pattern-trial loop of `increment_payment_reference`: the patterns of
`PR_FORMATS` are tried in order and the first match wins. -/
def pyMatchReference (s : String) : Option RefGroups :=
  match matchP1 s with
  | some g => some g
  | none =>
    match matchP2 s with
    | some g => some g
    | none =>
      match matchP3 s with
      | some g => some g
      | none => matchP4 s

/-- The number group extracted by the winning pattern, when one matches. -/
def numberGroup (s : String) : Option String :=
  (pyMatchReference s).map RefGroups.number

/-- The two distinct exception types `increment_payment_reference` can
raise: the explicit `Exception` of the no-pattern-matched branch, and the
`ValueError` that `int(number)` raises on a non-numeric group. -/
inductive RefError where
  | unparsable (pr : String)
  | intConversion (s : String)
deriving DecidableEq

def refErrorMessage : RefError → String
  | RefError.unparsable pr => "failed to parse payment reference " ++ pr
  | RefError.intConversion s => "invalid literal for int with base 10: " ++ s

/-- `increment_payment_reference` from the source.  The years arrive as
`date.year` values, so they are naturals and `str(year)` is `natToDec`. -/
def increment_payment_reference (pr : String) (prev_year this_year : Nat) :
    Except RefError String :=
  match pyMatchReference pr with
  | none => Except.error (RefError.unparsable pr)
  | some g =>
    let year := if g.year = natToDec prev_year then natToDec this_year else g.year
    match digitsToNat g.number.data with
    | none => Except.error (RefError.intConversion g.number)
    | some n => Except.ok (g.pfx ++ year ++ zeroPad g.number.length (natToDec (n + 1)))

/-! ## Decimal printing and parsing lemmas -/

lemma digitVal_digitChar : ∀ n < 10, digitVal (digitChar n) = n := by decide

lemma isDigit_digitChar : ∀ n < 10, (digitChar n).isDigit = true := by decide

lemma digitsVal_append_singleton (l : List Char) (c : Char) :
    digitsVal (l ++ [c]) = digitsVal l * 10 + digitVal c := by
  simp [digitsVal, List.foldl_append]

lemma digitsVal_zero_cons (l : List Char) : digitsVal ('0' :: l) = digitsVal l := by
  have h0 : digitVal '0' = 0 := by decide
  simp [digitsVal, h0]

lemma digitsVal_zeros (k : Nat) (l : List Char) :
    digitsVal (List.replicate k '0' ++ l) = digitsVal l := by
  induction k with
  | zero => simp
  | succ n ih => rw [List.replicate_succ, List.cons_append, digitsVal_zero_cons, ih]

lemma natToDecimalAux_spec :
    ∀ fuel n : Nat, n < 10 ^ fuel →
      digitsVal (natToDecimalAux fuel n) = n ∧
      (natToDecimalAux fuel n).all Char.isDigit = true ∧
      natToDecimalAux fuel n ≠ [] := by
  intro fuel
  induction fuel with
  | zero =>
    intro n hn
    have h0 : n = 0 := by simpa using hn
    subst h0
    refine ⟨by decide, by decide, by decide⟩
  | succ f ih =>
    intro n hn
    by_cases h10 : n < 10
    · simp only [natToDecimalAux, if_pos h10]
      refine ⟨?_, ?_, by simp⟩
      · simpa [digitsVal] using digitVal_digitChar n h10
      · simpa using isDigit_digitChar n h10
    · have hdiv : n / 10 < 10 ^ f := by
        rw [Nat.div_lt_iff_lt_mul (by norm_num)]
        calc n < 10 ^ (f + 1) := hn
        _ = 10 ^ f * 10 := by ring
      obtain ⟨h1, h2, h3⟩ := ih (n / 10) hdiv
      simp only [natToDecimalAux, if_neg h10]
      have hmod : n % 10 < 10 := Nat.mod_lt n (by norm_num)
      refine ⟨?_, ?_, by simp⟩
      · rw [digitsVal_append_singleton, h1, digitVal_digitChar _ hmod]
        omega
      · rw [List.all_append, h2]
        simpa using isDigit_digitChar _ hmod

lemma natToDec_spec (n : Nat) :
    digitsVal (natToDec n).data = n ∧
    (natToDec n).data.all Char.isDigit = true ∧
    (natToDec n).data ≠ [] := by
  have hlt : n < 10 ^ n := lt_of_lt_of_le (Nat.lt_two_pow n)
    (Nat.pow_le_pow_left (by norm_num) n)
  simpa [natToDec] using natToDecimalAux_spec n n hlt

lemma digitsToNat_of_digits {cs : List Char} (hne : cs ≠ [])
    (hd : cs.all Char.isDigit = true) : digitsToNat cs = some (digitsVal cs) := by
  simp [digitsToNat, hne, hd]

lemma string_data_ne_nil {s : String} (h : s ≠ "") : s.data ≠ [] := by
  intro hd
  apply h
  cases s with
  | mk data => simp only at hd; rw [hd]

/-! ## Claims C1, C5, C10 -/

/-- C1: the claim expects `increment_payment_reference("AB2023007", 2023,
2024) = "AB2024008"`, but the code returns `"AB2023008"`: the `{year}`
placeholder in `PR_FORMATS` is never substituted, so the year-bearing
patterns 1 and 2 cannot match `"AB2023007"`; pattern 3 wins with an empty
`year` group and the `from prev_year to this_year` replacement branch is
dead code.  This theorem evaluates the embedded code at the failing input
and records that the result differs from the claimed one. -/
theorem c1_increment_reference_year_rollover_bug :
    increment_payment_reference "AB2023007" 2023 2024 = Except.ok "AB2023008" ∧
    pyMatchReference "AB2023007" = some ⟨"AB", "", "2023007"⟩ ∧
    (Except.ok "AB2023008" : Except RefError String) ≠ Except.ok "AB2024008" := by
  decide

/-- Counterexample for C5: the string `"AB"` is matched by pattern 3 (with
an empty `number` group), yet `increment_payment_reference` does not return
any incremented reference for it — `int("")` raises a `ValueError`
instead. -/
theorem c5_counterexample :
    pyMatchReference "AB" = some ⟨"AB", "", ""⟩ ∧
    increment_payment_reference "AB" 2023 2024 =
      Except.error (RefError.intConversion "") := by
  decide

/-- C5 (amended): for every reference string matched by some pattern
*whose extracted number group is a nonempty digit string*, the function
returns prefix ++ year ++ padded-number, where the padded number has the
numeric value of the old number plus one, consists of digits only, and is
at least as wide as the original number group (width grows rather than
truncates); concretely `increment_payment_reference "INV099" 2023 2024 =
"INV100"`. -/
theorem c5_increment_number_amended (s : String) (py ty : Nat) (g : RefGroups)
    (hm : pyMatchReference s = some g)
    (hne : g.number ≠ "") (hdig : g.number.data.all Char.isDigit = true) :
    increment_payment_reference s py ty =
      Except.ok (g.pfx ++ (if g.year = natToDec py then natToDec ty else g.year) ++
        zeroPad g.number.length (natToDec (digitsVal g.number.data + 1))) ∧
    digitsVal (zeroPad g.number.length (natToDec (digitsVal g.number.data + 1))).data =
      digitsVal g.number.data + 1 ∧
    (zeroPad g.number.length
      (natToDec (digitsVal g.number.data + 1))).data.all Char.isDigit = true ∧
    g.number.length ≤
      (zeroPad g.number.length (natToDec (digitsVal g.number.data + 1))).length ∧
    increment_payment_reference "INV099" 2023 2024 = Except.ok "INV100" := by
  obtain ⟨hval, hdigits, hnonnil⟩ := natToDec_spec (digitsVal g.number.data + 1)
  have hint : digitsToNat g.number.data = some (digitsVal g.number.data) :=
    digitsToNat_of_digits (string_data_ne_nil hne) hdig
  refine ⟨?_, ?_, ?_, ?_, by decide⟩
  · unfold increment_payment_reference
    rw [hm]
    dsimp only
    rw [hint]
  · show digitsVal (String.mk _ ++ natToDec _).data = _
    rw [String.data_append]
    show digitsVal (List.replicate _ '0' ++ _) = _
    rw [digitsVal_zeros, hval]
  · show (String.mk _ ++ natToDec _).data.all Char.isDigit = true
    rw [String.data_append, List.all_append, hdigits]
    show (List.replicate _ '0').all Char.isDigit && true = true
    simp [List.all_eq_true, List.eq_of_mem_replicate]
  · show g.number.length ≤ (String.mk _ ++ natToDec _).length
    rw [String.length_append]
    show g.number.length ≤ (String.mk (List.replicate _ '0')).length + _
    simp only [String.length, String.data]
    rw [List.length_replicate]
    omega

/-- Counterexample for C10: the input `"a\nb"` is matched by none of the
four patterns (with default flags `.` in patterns 1 and 3 does not match a
newline, so no decomposition fits), hence the claimed-unreachable
no-pattern-matched failure branch is taken. -/
theorem c10_counterexample :
    pyMatchReference "a\nb" = none ∧
    increment_payment_reference "a\nb" 2023 2024 =
      Except.error (RefError.unparsable "a\nb") := by
  decide

/-- C10 (amended): for every input string *containing no newline*, at least
one of the four patterns matches the whole string (pattern 3 accepts any
newline-free string containing a non-digit and pattern 4 any digits-only
string including the empty string), so for such inputs the
no-pattern-matched failure branch is not taken; inputs whose extracted
number group is empty fail in the integer conversion of the number, and the
empty string is such an input. -/
theorem c10_pattern_coverage_amended (s : String) (py ty : Nat)
    (hnl : s.data.all (fun c => c ≠ '\n') = true) :
    (pyMatchReference s).isSome = true ∧
    increment_payment_reference s py ty ≠ Except.error (RefError.unparsable s) ∧
    (numberGroup s = some "" →
      increment_payment_reference s py ty =
        Except.error (RefError.intConversion "")) ∧
    numberGroup "" = some "" := by
  have hsome : (pyMatchReference s).isSome = true := by
    by_cases hd : s.data.all Char.isDigit
    · have h4 : (matchP4 s).isSome = true := by
        simp [matchP4, withDollarNewline, strictP4, hd]
      unfold pyMatchReference
      cases h1 : matchP1 s with
      | some g => simp
      | none =>
        cases h2 : matchP2 s with
        | some g => simp
        | none =>
          cases h3 : matchP3 s with
          | some g => simp
          | none => exact h4
    · have hpre : (s.data.reverse.dropWhile Char.isDigit).reverse ≠ [] := by
        intro hnil
        apply hd
        have hdrop : s.data.reverse.dropWhile Char.isDigit = [] := by
          simpa using congrArg List.reverse hnil
        have := List.dropWhile_eq_nil_iff.mp hdrop
        rw [List.all_eq_true]
        intro x hx
        exact this x (List.mem_reverse.mpr hx)
      have hall : ((s.data.reverse.dropWhile Char.isDigit).reverse.dropLast.all
          (fun c => c ≠ '\n')) = true := by
        rw [List.all_eq_true]
        intro x hx
        have hx1 : x ∈ (s.data.reverse.dropWhile Char.isDigit).reverse :=
          (List.dropLast_sublist _).subset hx
        have hx2 : x ∈ s.data :=
          List.mem_reverse.mp ((List.dropWhile_sublist _).subset (List.mem_reverse.mp hx1))
        exact List.all_eq_true.mp hnl x hx2
      have h3 : (matchP3 s).isSome = true := by
        simp only [matchP3, withDollarNewline, strictP3]
        rw [if_pos ⟨hpre, hall⟩]
        rfl
      unfold pyMatchReference
      cases h1 : matchP1 s with
      | some g => simp
      | none =>
        cases h2 : matchP2 s with
        | some g => simp
        | none =>
          cases h3' : matchP3 s with
          | some g => simp
          | none => rw [h3'] at h3; exact absurd h3 (by simp)
  refine ⟨hsome, ?_, ?_, by decide⟩
  · cases hm : pyMatchReference s with
    | none => rw [hm] at hsome; exact absurd hsome (by simp)
    | some g =>
      unfold increment_payment_reference
      rw [hm]
      dsimp only
      cases digitsToNat g.number.data with
      | none => simp
      | some n => simp
  · intro hng
    cases hm : pyMatchReference s with
    | none => rw [hm] at hsome; exact absurd hsome (by simp)
    | some g =>
      have hnum : g.number = "" := by
        simpa [numberGroup, hm] using hng
      unfold increment_payment_reference
      rw [hm]
      dsimp only
      rw [hnum]
      rfl

/-- Witness for C5, at the claim's own example `"INV099"`. -/
theorem c5_increment_number_amended_witness :
    (pyMatchReference "INV099" = some ⟨"INV", "", "099"⟩ ∧
     ("099" : String) ≠ "" ∧ ("099" : String).data.all Char.isDigit = true) ∧
    (increment_payment_reference "INV099" 2023 2024 =
      Except.ok ("INV" ++ (if ("" : String) = natToDec 2023 then natToDec 2024 else "") ++
        zeroPad ("099" : String).length (natToDec (digitsVal ("099" : String).data + 1))) ∧
    digitsVal (zeroPad ("099" : String).length
      (natToDec (digitsVal ("099" : String).data + 1))).data =
      digitsVal ("099" : String).data + 1 ∧
    (zeroPad ("099" : String).length
      (natToDec (digitsVal ("099" : String).data + 1))).data.all Char.isDigit = true ∧
    ("099" : String).length ≤
      (zeroPad ("099" : String).length
        (natToDec (digitsVal ("099" : String).data + 1))).length ∧
    increment_payment_reference "INV099" 2023 2024 = Except.ok "INV100") :=
  ⟨⟨by decide, by decide, by decide⟩,
    c5_increment_number_amended "INV099" 2023 2024 ⟨"INV", "", "099"⟩
      (by decide) (by decide) (by decide)⟩

/-- Witness for C10, at the newline-free input `"INV2024"`. -/
theorem c10_pattern_coverage_amended_witness :
    (("INV2024" : String).data.all (fun c => c ≠ '\n') = true) ∧
    ((pyMatchReference "INV2024").isSome = true ∧
     increment_payment_reference "INV2024" 2023 2024 ≠
       Except.error (RefError.unparsable "INV2024") ∧
     (numberGroup "INV2024" = some "" →
       increment_payment_reference "INV2024" 2023 2024 =
         Except.error (RefError.intConversion "")) ∧
     numberGroup "" = some "") :=
  ⟨by decide, c10_pattern_coverage_amended "INV2024" 2023 2024 (by decide)⟩

/-! ## InvoiceExpander

The invoice record is a JSON object; the fields the core reads and writes
are embedded as a structure.  Optional fields are `Option`-valued (`none` =
key absent).  Python dictionary writes of the prefixed party fields
(`supplier_*`, `client_*`) are modelled by the two list-valued fields
`supplier_fields`/`client_fields`, which each run of the expansion
overwrites (dictionary assignment semantics).  File-system access to
`parties/<name>.json` is abstracted into a lookup function, `none`
modelling a missing party file.
-/

/-- One entry of `deliveries`.  `total` is the derived field the expansion
writes. -/
structure Delivery where
  description : String
  quantity : ℚ
  unit_price : ℚ
  unit : String
  total : Option ℚ
deriving DecidableEq

/-- One entry of an on-call sheet's `items` (JSON keys `from`/`to` are
`timeFrom`/`timeTo` here); `hours` and `price` are derived. -/
structure OncallItem where
  workday : Bool
  timeFrom : String
  timeTo : String
  hours : Option ℚ
  price : Option ℚ
deriving DecidableEq

/-- One entry of `oncall`; `total_hours` and `total_price` are derived. -/
structure OncallSheet where
  title : String
  business_start : String
  business_end : String
  hourly_price : ℚ
  items : List OncallItem
  total_hours : Option ℚ
  total_price : Option ℚ
deriving DecidableEq

/-- The invoice record fields the core touches. -/
structure InvoiceRecord where
  supplier : String
  client : String
  payment_reference : String
  date_from : String
  date_to : String
  issue_date : String
  delivery_date : Option String
  due_date : Option String
  deliveries : List Delivery
  oncall : Option (List OncallSheet)
  total : Option ℚ
  supplier_fields : List (String × String)
  client_fields : List (String × String)
deriving DecidableEq

/-- The per-item loop of the oncall block: workday items are billed via
`hours_outside_business`, non-workday items assert `from < to` and bill the
raw duration; each item gains `hours` and `price = hours * hourly_price`
and the hours accumulate into the sheet total. -/
def expandItems (bStart bEnd hourly : ℚ) :
    List OncallItem → Except String (List OncallItem × ℚ)
  | [] => Except.ok ([], 0)
  | item :: rest =>
    match time_to_hours item.timeFrom, time_to_hours item.timeTo with
    | some f, some t =>
      match
        (if item.workday then
          match hours_outside_business bStart bEnd f t with
          | some h => Except.ok h
          | none => Except.error "AssertionError: invalid interval"
        else if f < t then Except.ok (t - f)
        else (Except.error "AssertionError: from not before to" : Except String ℚ)) with
      | Except.error e => Except.error e
      | Except.ok hours =>
        match expandItems bStart bEnd hourly rest with
        | Except.error e => Except.error e
        | Except.ok (rest2, restHours) =>
          Except.ok
            (⟨item.workday, item.timeFrom, item.timeTo, some hours, some (hours * hourly)⟩ :: rest2,
              hours + restHours)
    | _, _ => Except.error "ValueError: unparsable clock time"

/-- The per-sheet loop of the oncall block: each sheet gains `total_hours`
and `total_price` and contributes one synthesized delivery line
(description = title, quantity = total_hours, unit_price = hourly_price,
unit = "hour"), in sheet order. -/
def expandSheets : List OncallSheet → Except String (List OncallSheet × List Delivery)
  | [] => Except.ok ([], [])
  | sheet :: rest =>
    match time_to_hours sheet.business_start, time_to_hours sheet.business_end with
    | some bStart, some bEnd =>
      match expandItems bStart bEnd sheet.hourly_price sheet.items with
      | Except.error e => Except.error e
      | Except.ok (items2, totalHours) =>
        match expandSheets rest with
        | Except.error e => Except.error e
        | Except.ok (rest2, lines) =>
          Except.ok
            (⟨sheet.title, sheet.business_start, sheet.business_end, sheet.hourly_price,
                items2, some totalHours, some (totalHours * sheet.hourly_price)⟩ :: rest2,
              ⟨sheet.title, totalHours, sheet.hourly_price, "hour", none⟩ :: lines)
    | _, _ => Except.error "ValueError: unparsable business hours"

/-- The `if "oncall" in data` guard around the sheet loop. -/
def expandOncall :
    Option (List OncallSheet) → Except String (Option (List OncallSheet) × List Delivery)
  | none => Except.ok (none, [])
  | some sheets =>
    match expandSheets sheets with
    | Except.error e => Except.error e
    | Except.ok (sheets2, lines) => Except.ok (some sheets2, lines)

/-- The totals loop writes `delivery["total"] = quantity * unit_price` into
each line. -/
def setDeliveryTotal (d : Delivery) : Delivery :=
  ⟨d.description, d.quantity, d.unit_price, d.unit, some (d.quantity * d.unit_price)⟩

/-- The accumulated grand total: `total += delivery["total"]` over the
final delivery list, starting from 0 (each addend is the `quantity *
unit_price` just written). -/
def deliveriesTotal (l : List Delivery) : ℚ :=
  l.foldl (fun acc d => acc + d.quantity * d.unit_price) 0

/-- Number of oncall sheets of a record (each contributes one synthesized
delivery line). -/
def oncallCount : Option (List OncallSheet) → Nat
  | none => 0
  | some sheets => sheets.length

/-- `expand_data` from the source.  Order mirrors the source:
delivery-date defaulting, due-date defaulting (whose replacement value —
including the parse of `issue_date` — is evaluated before the presence
check, because `recompute_if_missing`'s argument is evaluated at call
time), the oncall block, the totals loop, then the party-field merge. -/
def expand_data (lookup : String → Option (List (String × String)))
    (data : InvoiceRecord) : Except String InvoiceRecord :=
  match parse_pretty_date data.issue_date with
  | none => Except.error "ValueError: unparsable issue_date"
  | some issue =>
    let delivery_date := data.delivery_date.getD data.date_to
    let due_date := data.due_date.getD (pretty_date (addDays 15 issue))
    match expandOncall data.oncall with
    | Except.error e => Except.error e
    | Except.ok (oncall2, newLines) =>
      let deliveries0 := data.deliveries ++ newLines
      match lookup data.supplier with
      | none => Except.error "FileNotFoundError: unknown supplier"
      | some sfields =>
        match lookup data.client with
        | none => Except.error "FileNotFoundError: unknown client"
        | some cfields =>
          Except.ok { data with
            delivery_date := some delivery_date,
            due_date := some due_date,
            oncall := oncall2,
            deliveries := deliveries0.map setDeliveryTotal,
            total := some (deliveriesTotal deliveries0),
            supplier_fields := sfields,
            client_fields := cfields }

/-! ## InvoiceExpander lemmas -/

lemma deliveriesTotal_foldl (l : List Delivery) :
    ∀ a : ℚ, l.foldl (fun acc d => acc + d.quantity * d.unit_price) a =
      a + (l.map (fun d => d.quantity * d.unit_price)).sum := by
  induction l with
  | nil => intro a; simp
  | cons d rest ih =>
    intro a
    simp only [List.foldl_cons, List.map_cons, List.sum_cons, ih]
    ring

lemma deliveriesTotal_eq_sum (l : List Delivery) :
    deliveriesTotal l = (l.map (fun d => d.quantity * d.unit_price)).sum := by
  unfold deliveriesTotal
  rw [deliveriesTotal_foldl]
  ring

lemma deliveriesTotal_map_setTotal (l : List Delivery) :
    deliveriesTotal (l.map setDeliveryTotal) = deliveriesTotal l := by
  rw [deliveriesTotal_eq_sum, deliveriesTotal_eq_sum, List.map_map]
  rfl

lemma map_setTotal_idem (l : List Delivery) :
    (l.map setDeliveryTotal).map setDeliveryTotal = l.map setDeliveryTotal := by
  rw [List.map_map]
  rfl

lemma expandSheets_lines_length :
    ∀ {sheets sheets2 lines}, expandSheets sheets = Except.ok (sheets2, lines) →
      lines.length = sheets.length := by
  intro sheets
  induction sheets with
  | nil =>
    intro sheets2 lines h
    simp only [expandSheets, Except.ok.injEq, Prod.mk.injEq] at h
    rw [← h.2]
    rfl
  | cons sheet rest ih =>
    intro sheets2 lines h
    simp only [expandSheets] at h
    split at h
    · split at h
      · exact absurd h (by simp)
      · split at h
        · exact absurd h (by simp)
        · rename_i rest2 lines2 hrest
          simp only [Except.ok.injEq, Prod.mk.injEq] at h
          rw [← h.2]
          simpa using ih hrest
    · exact absurd h (by simp)

lemma expandOncall_lines_length :
    ∀ {o o2 lines}, expandOncall o = Except.ok (o2, lines) →
      lines.length = oncallCount o := by
  intro o o2 lines h
  cases o with
  | none =>
    simp only [expandOncall, Except.ok.injEq, Prod.mk.injEq] at h
    rw [← h.2]
    rfl
  | some sheets =>
    simp only [expandOncall] at h
    split at h
    · exact absurd h (by simp)
    · rename_i sheets2 lines2 hsheets
      simp only [Except.ok.injEq, Prod.mk.injEq] at h
      rw [← h.2]
      exact expandSheets_lines_length hsheets

/-! ## Claims C4, C8, C2 -/

/-- C4: after a successful run of `expand_data`, every line of the final
delivery list carries `total = quantity * unit_price`, the record's `total`
is the sum of those products over the final delivery list (which includes
the on-call synthesized lines, appended before the totals loop runs), and
the final list is the input list extended by exactly one line per on-call
sheet. -/
theorem c4_expand_totals (lookup : String → Option (List (String × String)))
    (r r' : InvoiceRecord) (h : expand_data lookup r = Except.ok r') :
    r'.deliveries.map Delivery.total =
      r'.deliveries.map (fun d => some (d.quantity * d.unit_price)) ∧
    r'.total = some ((r'.deliveries.map (fun d => d.quantity * d.unit_price)).sum) ∧
    r'.deliveries.length = r.deliveries.length + oncallCount r.oncall := by
  unfold expand_data at h
  split at h
  · exact absurd h (by simp)
  · split at h
    · exact absurd h (by simp)
    · rename_i oncall2 newLines honcall
      split at h
      · exact absurd h (by simp)
      · split at h
        · exact absurd h (by simp)
        · simp only [Except.ok.injEq] at h
          subst h
          refine ⟨?_, ?_, ?_⟩
          · show ((r.deliveries ++ newLines).map setDeliveryTotal).map Delivery.total = _
            rw [List.map_map, List.map_map]
            rfl
          · show some (deliveriesTotal (r.deliveries ++ newLines)) = _
            rw [deliveriesTotal_eq_sum, List.map_map]
            rfl
          · show ((r.deliveries ++ newLines).map setDeliveryTotal).length = _
            rw [List.length_map, List.length_append, expandOncall_lines_length honcall]

/-- C8: date defaulting in `expand_data` is non-destructive — on a
successful run, `delivery_date` in the output is the input value when
present and `date_to` otherwise, and `due_date` is the input value when
present and `issue_date + 15 days` otherwise. -/
theorem c8_date_defaulting (lookup : String → Option (List (String × String)))
    (r r' : InvoiceRecord) (issue : Date)
    (hp : parse_pretty_date r.issue_date = some issue)
    (h : expand_data lookup r = Except.ok r') :
    r'.delivery_date = some (r.delivery_date.getD r.date_to) ∧
    r'.due_date = some (r.due_date.getD (pretty_date (addDays 15 issue))) := by
  unfold expand_data at h
  rw [hp] at h
  simp only at h
  split at h
  · exact absurd h (by simp)
  · split at h
    · exact absurd h (by simp)
    · split at h
      · exact absurd h (by simp)
      · simp only [Except.ok.injEq] at h
        subst h
        exact ⟨rfl, rfl⟩

/-- Helper for C2: on a record without on-call data, the output of a
successful expansion is a fixpoint of the expansion. -/
lemma expand_fixpoint (lookup : String → Option (List (String × String)))
    (r r1 : InvoiceRecord) (h0 : r.oncall = none)
    (h1 : expand_data lookup r = Except.ok r1) :
    expand_data lookup r1 = Except.ok r1 := by
  unfold expand_data at h1
  rw [h0] at h1
  cases hp : parse_pretty_date r.issue_date with
  | none => rw [hp] at h1; exact absurd h1 (by simp)
  | some issue =>
    rw [hp] at h1
    simp only [expandOncall] at h1
    cases hs : lookup r.supplier with
    | none => rw [hs] at h1; exact absurd h1 (by simp)
    | some sfields =>
      rw [hs] at h1
      cases hc : lookup r.client with
      | none => rw [hc] at h1; exact absurd h1 (by simp)
      | some cfields =>
        rw [hc] at h1
        simp only [Except.ok.injEq] at h1
        subst h1
        unfold expand_data
        simp only [expandOncall]
        rw [hp, hs, hc]
        simp only [Except.ok.injEq, Option.getD_some, List.append_nil]
        rw [map_setTotal_idem, deliveriesTotal_map_setTotal]

/-- Counterexample for C2: an already-expanded record that still carries
on-call data gets its synthesized delivery line appended *again* on a
second run, so the recomputed grand total doubles instead of staying
identical. -/
def partyLookup0 : String → Option (List (String × String)) := fun _ => some []

def oncallRecord : InvoiceRecord :=
  ⟨"acme", "corp", "INV001", "01.01.2024", "31.01.2024", "01.02.2024", none, none,
    [], some [⟨"oncall week", "9:00", "17:00", 10,
      [⟨false, "10:00", "11:00", none, none⟩], none, none⟩], none, [], []⟩

/-- Counterexample theorem for C2 (see `oncallRecord`): the first expansion
yields total 10, re-expanding the expanded record yields total 20. -/
theorem c2_counterexample :
    Except.map InvoiceRecord.total (expand_data partyLookup0 oncallRecord) =
      Except.ok (some (10 : ℚ)) ∧
    Except.map InvoiceRecord.total
      ((expand_data partyLookup0 oncallRecord).bind (expand_data partyLookup0)) =
      Except.ok (some (20 : ℚ)) ∧
    (some (20 : ℚ)) ≠ (some (10 : ℚ)) := by
  decide

/-- C2 (amended): for every already-expanded record *without on-call
data*, running `expand_data` a second time recomputes identical totals —
the grand `total` and every line's `total` agree with the first run (in
fact the whole record is reproduced). -/
theorem c2_idempotent_amended (lookup : String → Option (List (String × String)))
    (r r1 r2 : InvoiceRecord) (h0 : r.oncall = none)
    (h1 : expand_data lookup r = Except.ok r1)
    (h2 : expand_data lookup r1 = Except.ok r2) :
    r2.total = r1.total ∧
    r2.deliveries.map Delivery.total = r1.deliveries.map Delivery.total := by
  have hfix := expand_fixpoint lookup r r1 h0 h1
  rw [hfix, Except.ok.injEq] at h2
  rw [← h2]
  exact ⟨rfl, rfl⟩

/-- The record of the end-to-end example: two deliveries
`{qty 2, price 10}` and `{qty 1, price 5}`, no on-call data. -/
def twoLineRecord : InvoiceRecord :=
  ⟨"acme", "corp", "INV001", "01.01.2024", "31.01.2024", "01.02.2024", none, none,
    [⟨"work a", 2, 10, "piece", none⟩, ⟨"work b", 1, 5, "piece", none⟩],
    none, none, [], []⟩

/-- The expansion of `twoLineRecord`. -/
def twoLineExpanded : InvoiceRecord :=
  ⟨"acme", "corp", "INV001", "01.01.2024", "31.01.2024", "01.02.2024",
    some "31.01.2024", some "16.02.2024",
    [⟨"work a", 2, 10, "piece", some 20⟩, ⟨"work b", 1, 5, "piece", some 5⟩],
    none, some 25, [], []⟩

/-- Witness for C4, at the claim's end-to-end example; the expanded total
is 25. -/
theorem c4_expand_totals_witness :
    (expand_data partyLookup0 twoLineRecord = Except.ok twoLineExpanded) ∧
    (twoLineExpanded.deliveries.map Delivery.total =
      twoLineExpanded.deliveries.map (fun d => some (d.quantity * d.unit_price)) ∧
    twoLineExpanded.total =
      some ((twoLineExpanded.deliveries.map (fun d => d.quantity * d.unit_price)).sum) ∧
    twoLineExpanded.deliveries.length =
      twoLineRecord.deliveries.length + oncallCount twoLineRecord.oncall) ∧
    twoLineExpanded.total = some (25 : ℚ) :=
  ⟨by decide, c4_expand_totals partyLookup0 twoLineRecord twoLineExpanded (by decide),
    by decide⟩

/-- A record with an explicit `delivery_date` and no `due_date`. -/
def presetDateRecord : InvoiceRecord :=
  ⟨"acme", "corp", "INV001", "01.01.2024", "31.01.2024", "01.02.2024",
    some "15.01.2024", none, [], none, none, [], []⟩

/-- The expansion of `presetDateRecord`: the explicit `delivery_date`
survives, the missing `due_date` is filled with `issue_date + 15 days`. -/
def presetDateExpanded : InvoiceRecord :=
  ⟨"acme", "corp", "INV001", "01.01.2024", "31.01.2024", "01.02.2024",
    some "15.01.2024", some "16.02.2024", [], none, some 0, [], []⟩

/-- Witness for C8, at a record with `delivery_date` present and
`due_date` absent. -/
theorem c8_date_defaulting_witness :
    (parse_pretty_date presetDateRecord.issue_date = some ⟨2024, 2, 1⟩ ∧
      expand_data partyLookup0 presetDateRecord = Except.ok presetDateExpanded) ∧
    (presetDateExpanded.delivery_date =
      some (presetDateRecord.delivery_date.getD presetDateRecord.date_to) ∧
    presetDateExpanded.due_date =
      some (presetDateRecord.due_date.getD (pretty_date (addDays 15 ⟨2024, 2, 1⟩)))) :=
  ⟨⟨by decide, by decide⟩,
    c8_date_defaulting partyLookup0 presetDateRecord presetDateExpanded ⟨2024, 2, 1⟩
      (by decide) (by decide)⟩

/-- Witness for C2 (amended), at the oncall-free `twoLineRecord`: the
second expansion reproduces the totals of the first. -/
theorem c2_idempotent_amended_witness :
    (twoLineRecord.oncall = none ∧
      expand_data partyLookup0 twoLineRecord = Except.ok twoLineExpanded ∧
      expand_data partyLookup0 twoLineExpanded = Except.ok twoLineExpanded) ∧
    (twoLineExpanded.total = twoLineExpanded.total ∧
      twoLineExpanded.deliveries.map Delivery.total =
        twoLineExpanded.deliveries.map Delivery.total) :=
  ⟨⟨by decide, by decide, by decide⟩,
    c2_idempotent_amended partyLookup0 twoLineRecord twoLineExpanded twoLineExpanded
      (by decide) (by decide) (by decide)⟩

/-! ## PeriodAdvancer (`copy_and_increment`)

The function reads the previous-period record from a file and writes the
next-period skeleton; the file system is abstracted into the `outputExists`
flag (a pre-existing output aborts the run) and the record itself.
`datetime.now().date()` arrives as the `today` argument.  The staleness
message printed on stderr is returned alongside the produced record; an
exception raised later in the same run (an unincrementable reference)
discards the record, warning and all.
-/

/-- The advisory message of the staleness check. -/
def staleWarning : String :=
  "WARNING: Generating invoice more than 5 days old! Bailing out"

/-- `copy_and_increment` from the source: refuse an existing output, strip
the derived `delivery_date`/`due_date`, advance the period to
`[previous date_to + 1 day, end of that month]`, warn (non-fatally) when
`today - new date_to > 5 days`, stamp `issue_date = today` and increment
the payment reference with the previous and new `date_to` years. -/
def copy_and_increment (outputExists : Bool) (data : InvoiceRecord) (today : Date) :
    Except String (List String × InvoiceRecord) :=
  if outputExists then Except.error "OutputAlreadyExistsError: output file exists"
  else
    let data := { data with delivery_date := none, due_date := none }
    match parse_pretty_date data.date_to with
    | none => Except.error "ValueError: unparsable date_to"
    | some date_to_previous =>
      let date_from := addDay date_to_previous
      let date_to := end_of_month date_from
      let warnings := if 5 < toRataDie today - toRataDie date_to then [staleWarning] else []
      match increment_payment_reference data.payment_reference
          date_to_previous.year date_to.year with
      | Except.error e => Except.error (refErrorMessage e)
      | Except.ok pr =>
        Except.ok (warnings, { data with
          date_from := pretty_date date_from,
          date_to := pretty_date date_to,
          issue_date := pretty_date today,
          payment_reference := pr })

/-- The comparand C9 speaks about, following the spec's words: the same
skeleton computation with the staleness warning removed ("what would be
produced without the warning"). -/
def copy_and_increment_without_warning (outputExists : Bool) (data : InvoiceRecord)
    (today : Date) : Except String InvoiceRecord :=
  if outputExists then Except.error "OutputAlreadyExistsError: output file exists"
  else
    let data := { data with delivery_date := none, due_date := none }
    match parse_pretty_date data.date_to with
    | none => Except.error "ValueError: unparsable date_to"
    | some date_to_previous =>
      let date_from := addDay date_to_previous
      let date_to := end_of_month date_from
      match increment_payment_reference data.payment_reference
          date_to_previous.year date_to.year with
      | Except.error e => Except.error (refErrorMessage e)
      | Except.ok pr =>
        Except.ok { data with
          date_from := pretty_date date_from,
          date_to := pretty_date date_to,
          issue_date := pretty_date today,
          payment_reference := pr }

/-- C7: on a successful run, the new `date_from` is the previous `date_to`
plus one day, and the new `date_to` is the last day of the month containing
the new `date_from` (same year and month, day = length of that month), so
every generated period starts the day after the previous one ended and ends
on a month boundary. -/
theorem c7_period_advance (oe : Bool) (r : InvoiceRecord) (today : Date)
    (ws : List String) (r2 : InvoiceRecord) (dt : Date)
    (hdt : parse_pretty_date r.date_to = some dt)
    (h : copy_and_increment oe r today = Except.ok (ws, r2)) :
    r2.date_from = pretty_date (addDay dt) ∧
    r2.date_to = pretty_date (end_of_month (addDay dt)) ∧
    end_of_month (addDay dt) =
      ⟨(addDay dt).year, (addDay dt).month,
        daysInMonth (addDay dt).year (addDay dt).month⟩ := by
  have hval : ValidDate (addDay dt) := addDay_valid (parse_pretty_date_valid hdt)
  cases oe with
  | true => exact absurd h (by simp [copy_and_increment])
  | false =>
    unfold copy_and_increment at h
    rw [if_neg (by simp)] at h
    simp only at h
    rw [hdt] at h
    simp only at h
    split at h
    · exact absurd h (by simp)
    · simp only [Except.ok.injEq, Prod.mk.injEq] at h
      rw [← h.2]
      exact ⟨rfl, rfl, end_of_month_spec hval⟩

/-- The previous-period record used in the C7 and C9 witnesses. -/
def decemberRecord : InvoiceRecord :=
  ⟨"acme", "corp", "INV007", "01.12.2023", "31.12.2023", "01.12.2023", none, none,
    [], none, none, [], []⟩

/-- Witness for C7: advancing the December 2023 record on 5 January 2024
gives the period 01.01.2024 – 31.01.2024. -/
theorem c7_period_advance_witness :
    (parse_pretty_date decemberRecord.date_to = some ⟨2023, 12, 31⟩ ∧
      copy_and_increment false decemberRecord ⟨2024, 1, 5⟩ =
        Except.ok ([], ⟨"acme", "corp", "INV008", "01.01.2024", "31.01.2024",
          "05.01.2024", none, none, [], none, none, [], []⟩)) ∧
    (("01.01.2024" : String) = pretty_date (addDay ⟨2023, 12, 31⟩) ∧
      ("31.01.2024" : String) = pretty_date (end_of_month (addDay ⟨2023, 12, 31⟩)) ∧
      end_of_month (addDay ⟨2023, 12, 31⟩) =
        ⟨(addDay (⟨2023, 12, 31⟩ : Date)).year, (addDay (⟨2023, 12, 31⟩ : Date)).month,
          daysInMonth (addDay (⟨2023, 12, 31⟩ : Date)).year
            (addDay (⟨2023, 12, 31⟩ : Date)).month⟩) :=
  ⟨⟨by decide, by decide⟩,
    c7_period_advance false decemberRecord ⟨2024, 1, 5⟩ []
      ⟨"acme", "corp", "INV008", "01.01.2024", "31.01.2024",
        "05.01.2024", none, none, [], none, none, [], []⟩
      ⟨2023, 12, 31⟩ (by decide) (by decide)⟩

/-- Helper for C9: stripped of the warning list, `copy_and_increment`
computes exactly what the warning-free variant computes, on every input —
the staleness check influences neither success nor the produced record. -/
lemma copy_and_increment_projection (oe : Bool) (r : InvoiceRecord) (today : Date) :
    Except.map Prod.snd (copy_and_increment oe r today) =
      copy_and_increment_without_warning oe r today := by
  cases oe with
  | true => rfl
  | false =>
    unfold copy_and_increment copy_and_increment_without_warning
    simp only
    cases hp : parse_pretty_date r.date_to with
    | none => rfl
    | some dt =>
      simp only
      cases hi : increment_payment_reference r.payment_reference dt.year
          (end_of_month (addDay dt)).year with
      | error e => rfl
      | ok pr => rfl

/-- C9: the staleness check is non-fatal — whenever a run of
`copy_and_increment` succeeds and the staleness condition (`today` minus
the new `date_to` exceeds 5 days) holds, the warning is emitted, and the
produced skeleton record is exactly what the computation without the
warning produces; moreover, on every input the warning-stripped outcome
(success or failure, and the record produced) is identical to the
warning-free computation. -/
theorem c9_staleness_nonfatal (oe : Bool) (r : InvoiceRecord) (today : Date)
    (ws : List String) (r2 : InvoiceRecord) (dt : Date)
    (hdt : parse_pretty_date r.date_to = some dt)
    (hstale : 5 < toRataDie today - toRataDie (end_of_month (addDay dt)))
    (h : copy_and_increment oe r today = Except.ok (ws, r2)) :
    ws = [staleWarning] ∧
    copy_and_increment_without_warning oe r today = Except.ok r2 ∧
    Except.map Prod.snd (copy_and_increment oe r today) =
      copy_and_increment_without_warning oe r today := by
  have hproj := copy_and_increment_projection oe r today
  have hout : copy_and_increment_without_warning oe r today = Except.ok r2 := by
    rw [h] at hproj
    simpa [Except.map] using hproj.symm
  refine ⟨?_, hout, copy_and_increment_projection oe r today⟩
  cases oe with
  | true => exact absurd h (by simp [copy_and_increment])
  | false =>
    unfold copy_and_increment at h
    rw [if_neg (by simp)] at h
    simp only at h
    rw [hdt] at h
    simp only [if_pos hstale] at h
    split at h
    · exact absurd h (by simp)
    · simp only [Except.ok.injEq, Prod.mk.injEq] at h
      exact h.1.symm

/-- Witness for C9: advancing the December 2023 record on 20 March 2024
(49 days after the new period's end) emits the warning and still produces
the same skeleton as the computation without the warning. -/
theorem c9_staleness_nonfatal_witness :
    (parse_pretty_date decemberRecord.date_to = some ⟨2023, 12, 31⟩ ∧
      5 < toRataDie ⟨2024, 3, 20⟩ - toRataDie (end_of_month (addDay ⟨2023, 12, 31⟩)) ∧
      copy_and_increment false decemberRecord ⟨2024, 3, 20⟩ =
        Except.ok ([staleWarning], ⟨"acme", "corp", "INV008", "01.01.2024", "31.01.2024",
          "20.03.2024", none, none, [], none, none, [], []⟩)) ∧
    (([staleWarning] : List String) = [staleWarning] ∧
      copy_and_increment_without_warning false decemberRecord ⟨2024, 3, 20⟩ =
        Except.ok ⟨"acme", "corp", "INV008", "01.01.2024", "31.01.2024",
          "20.03.2024", none, none, [], none, none, [], []⟩ ∧
      Except.map Prod.snd (copy_and_increment false decemberRecord ⟨2024, 3, 20⟩) =
        copy_and_increment_without_warning false decemberRecord ⟨2024, 3, 20⟩) :=
  ⟨⟨by decide, by decide, by decide⟩,
    c9_staleness_nonfatal false decemberRecord ⟨2024, 3, 20⟩ [staleWarning]
      ⟨"acme", "corp", "INV008", "01.01.2024", "31.01.2024",
        "20.03.2024", none, none, [], none, none, [], []⟩
      ⟨2023, 12, 31⟩ (by decide) (by decide) (by decide)⟩

end MakeInvoice
